import Mathlib

set_option maxRecDepth 100000

/-!
Shallow embedding of the sha2 repository (src/sha2.py and src/sha256.py).

Bytes objects are modelled as `List Nat` (each entry a byte value 0..255);
Python unbounded ints are `Nat`, with explicit `% 2 ^ w` where the code
reduces modulo the word size.  Python's `%` on possibly-negative ints is
`Int.emod` (both give a result in `[0, modulus)` for a positive modulus),
made explicit in the padding computation.
-/

/-- Python `int.from_bytes(bs, "big")`. -/
def intFromBytes (bs : List Nat) : Nat :=
  bs.foldl (fun a b => 256 * a + b) 0

/-- Python `v.to_bytes(n, "big")`: the `n`-byte big-endian encoding of `v`.
(Python raises `OverflowError` when `v` does not fit in `n` bytes; every use
in the repository fits, and this model keeps the low `n` bytes.) -/
def natToBytesBE : Nat → Nat → List Nat
  | 0, _ => []
  | n + 1, v => natToBytesBE n (v / 256) ++ [v % 256]

/-- Python `range(0, stop, step)` for a positive `step`. -/
def rangeStep (stop step : Nat) : List Nat :=
  (List.range ((stop + step - 1) / step)).map (· * step)

/-- Class-level data of `sha2.SHA2`: the per-variant constants together with
the four abstract sigma methods filled in by each subclass. -/
structure SHA2 where
  WORD_SIZE : Nat
  BLOCK_SIZE : Nat
  DIGEST_LENGTH : Option Nat := none
  K : List Nat
  H : List Nat
  usigma_0 : Nat → Nat
  usigma_1 : Nat → Nat
  sigma_0 : Nat → Nat
  sigma_1 : Nat → Nat

/-- `SHA2Meta.__init__`: `_MODULO = 2 ** (WORD_SIZE * 8)`. -/
def SHA2.MODULO (cls : SHA2) : Nat := 2 ^ (cls.WORD_SIZE * 8)

/-- `SHA2._r_rotate`, with the class replaced by its word size in bytes:
`((x >> n) | x << (WORD_SIZE * 8 - n)) % _MODULO`. -/
def r_rotate_w (wordSize x n : Nat) : Nat :=
  ((x >>> n) ||| x <<< (wordSize * 8 - n)) % 2 ^ (wordSize * 8)

/-- `SHA2._r_rotate` as a method of the class record. -/
def SHA2.r_rotate (cls : SHA2) (x n : Nat) : Nat :=
  r_rotate_w cls.WORD_SIZE x n

/-- `SHA2._bit_not`: `(1 << WORD_SIZE * 8) - 1 - x`. -/
def SHA2.bit_not (cls : SHA2) (x : Nat) : Nat :=
  (1 <<< (cls.WORD_SIZE * 8)) - 1 - x

/-- `SHA2._ch`: `(x & y) | (bit_not(x) & z)` (the source uses OR). -/
def SHA2.ch (cls : SHA2) (x y z : Nat) : Nat :=
  (x &&& y) ||| (cls.bit_not x &&& z)

/-- `SHA2._maj` (staticmethod): `(x & y) | (x & z) | (y & z)`. -/
def SHA2.maj (x y z : Nat) : Nat :=
  (x &&& y) ||| (x &&& z) ||| (y &&& z)

/-- `SHA2._process`: split `m` into `len(m) // BLOCK_SIZE` blocks of
`BLOCK_SIZE` bytes, each parsed into big-endian words of `WORD_SIZE` bytes,
returning the blocks and the unconsumed remainder. -/
def SHA2.process (cls : SHA2) (m : List Nat) : List (List Nat) × List Nat :=
  ((List.range (m.length / cls.BLOCK_SIZE)).map (fun i =>
      let block := (m.drop (i * cls.BLOCK_SIZE)).take cls.BLOCK_SIZE
      (rangeStep cls.BLOCK_SIZE cls.WORD_SIZE).map (fun j =>
        intFromBytes ((block.drop j).take cls.WORD_SIZE))),
   m.drop (m.length / cls.BLOCK_SIZE * cls.BLOCK_SIZE))

/-- `SHA2._expand_message_block`: for `i` in `range(16, len(K))` append
`(sigma_1(w[i-2]) + w[i-7] + sigma_0(w[i-15]) + w[i-16]) % _MODULO`.
The Python method extends the word list in place; this model returns the
extended list. -/
def SHA2.expand_message_block (cls : SHA2) (w : List Nat) : List Nat :=
  (List.range' 16 (cls.K.length - 16)).foldl
    (fun w i =>
      w ++ [(cls.sigma_1 (w.getD (i - 2) 0) + w.getD (i - 7) 0
              + cls.sigma_0 (w.getD (i - 15) 0) + w.getD (i - 16) 0) % cls.MODULO])
    w

/-- One round-loop body plus final feed-forward of `SHA2._compress` for a
single block, acting on the 8-word hash value. -/
def SHA2.compress_block (cls : SHA2) (hash : List Nat) (block : List Nat) : List Nat :=
  let w := cls.expand_message_block block
  let s0 := (hash.getD 0 0, hash.getD 1 0, hash.getD 2 0, hash.getD 3 0,
             hash.getD 4 0, hash.getD 5 0, hash.getD 6 0, hash.getD 7 0)
  let s := (List.zip w cls.K).foldl
    (fun s wk =>
      match s, wk with
      | (a, b, c, d, e, f, g, h), (w, k) =>
        let t1 := h + cls.usigma_1 e + cls.ch e f g + k + w
        let t2 := cls.usigma_0 a + SHA2.maj a b c
        ((t1 + t2) % cls.MODULO, a, b, c, (d + t1) % cls.MODULO, e, f, g))
    s0
  match s with
  | (a, b, c, d, e, f, g, h) =>
    List.zipWith (fun r w => (r + w) % cls.MODULO) [a, b, c, d, e, f, g, h] hash

/-- `SHA2._compress`: fold the per-block compression over the block list. -/
def SHA2.compress (cls : SHA2) (hash : List Nat) (blocks : List (List Nat)) : List Nat :=
  blocks.foldl cls.compress_block hash

/-- Mutable state of a `sha2.SHA2` instance: `_hash`, `_last_block`,
`_message_length`. -/
structure Hasher where
  hash : List Nat
  last_block : List Nat
  message_length : Nat
deriving DecidableEq

/-- `SHA2.__init__` with `message=None`. -/
def SHA2.new (cls : SHA2) : Hasher :=
  { hash := cls.H, last_block := [], message_length := 0 }

/-- `SHA2._CHUNK_SIZE = 8 * 1024 ** 2`. -/
def CHUNK_SIZE : Nat := 8 * 1024 ^ 2

/-- One iteration of the `while` loop in `SHA2.update` on a nonempty chunk:
process the buffered bytes plus the chunk, compress the complete blocks,
keep the remainder, and add the chunk length in bits. -/
def SHA2.updateChunk (cls : SHA2) (st : Hasher) (chunk : List Nat) : Hasher :=
  let p := cls.process (st.last_block ++ chunk)
  { hash := cls.compress st.hash p.1,
    last_block := p.2,
    message_length := st.message_length + chunk.length * 8 }

/-- The `while` loop of `SHA2.update` reading `_CHUNK_SIZE`-byte chunks,
with explicit fuel for structural recursion; the loop stops when a read
returns no bytes.  `message.length + 1` fuel always suffices because every
iteration consumes at least one byte. -/
def SHA2.updateAux (cls : SHA2) : Nat → Hasher → List Nat → Hasher
  | 0, st, _ => st
  | fuel + 1, st, message =>
    let chunk := message.take CHUNK_SIZE
    if chunk.isEmpty then st
    else cls.updateAux fuel (cls.updateChunk st chunk) (message.drop CHUNK_SIZE)

/-- `SHA2.update` on a bytes argument (wrapped in `BytesIO` by the source,
whose `read` returns successive `_CHUNK_SIZE`-byte chunks). -/
def SHA2.update (cls : SHA2) (st : Hasher) (message : List Nat) : Hasher :=
  cls.updateAux (message.length + 1) st message

/-- The value `k` of `SHA2._process_last_block` for a buffer of length
`len`: `((BLOCK_SIZE - WORD_SIZE * 2 - len(m)) * 8 - 1) % (BLOCK_SIZE * 8)`,
computed over the integers as in Python. -/
def SHA2.k_value (cls : SHA2) (len : Nat) : Nat :=
  ((((cls.BLOCK_SIZE : Int) - (cls.WORD_SIZE : Int) * 2 - (len : Int)) * 8 - 1)
    % ((cls.BLOCK_SIZE : Int) * 8)).toNat

/-- The padded message `m + zeroes + length` built by
`SHA2._process_last_block`: `zeroes = (1 << k).to_bytes((k + 1) // 8, "big")`
and `length = _message_length.to_bytes(WORD_SIZE * 2, "big")`. -/
def SHA2.padded (cls : SHA2) (st : Hasher) : List Nat :=
  let m := st.last_block
  let k := cls.k_value m.length
  m ++ natToBytesBE ((k + 1) / 8) (1 <<< k)
    ++ natToBytesBE (cls.WORD_SIZE * 2) st.message_length

/-- `SHA2._process_last_block`: pad the buffered tail and process it into
blocks. -/
def SHA2.process_last_block (cls : SHA2) (st : Hasher) : List (List Nat) :=
  (cls.process (cls.padded st)).1

/-- `SHA2.digest`, returning both the digest bytes and the hasher state
after the call (the source saves `_hash`, compresses the padded blocks,
serialises the first `DIGEST_LENGTH` hash words big-endian, then restores
`_hash`). -/
def SHA2.digestS (cls : SHA2) (st : Hasher) : List Nat × Hasher :=
  let last_hash := st.hash
  let st1 : Hasher := { st with hash := cls.compress st.hash (cls.process_last_block st) }
  let d := ((match cls.DIGEST_LENGTH with
             | none => st1.hash
             | some n => st1.hash.take n).map (natToBytesBE cls.WORD_SIZE)).flatten
  let st2 : Hasher := { st1 with hash := last_hash }
  (d, st2)

/-- The bytes returned by `SHA2.digest`. -/
def SHA2.digest (cls : SHA2) (st : Hasher) : List Nat :=
  (cls.digestS st).1

/-- `SHA2._to_hex`: `f"{int.from_bytes(digest, 'big'):x}"`, the lowercase
hex form of the digest read as one big integer, with no left padding. -/
def to_hex (digest : List Nat) : String :=
  ⟨Nat.toDigits 16 (intFromBytes digest)⟩

/-- `SHA2.hexdigest`. -/
def SHA2.hexdigest (cls : SHA2) (st : Hasher) : String :=
  to_hex (cls.digest st)

/-- `SHA256._usigma_0`. -/
def SHA256.usigma_0 (x : Nat) : Nat :=
  r_rotate_w 4 x 2 ^^^ r_rotate_w 4 x 13 ^^^ r_rotate_w 4 x 22

/-- `SHA256._usigma_1`. -/
def SHA256.usigma_1 (x : Nat) : Nat :=
  r_rotate_w 4 x 6 ^^^ r_rotate_w 4 x 11 ^^^ r_rotate_w 4 x 25

/-- `SHA256._sigma_0`. -/
def SHA256.sigma_0 (x : Nat) : Nat :=
  r_rotate_w 4 x 7 ^^^ r_rotate_w 4 x 18 ^^^ (x >>> 3)

/-- `SHA256._sigma_1`. -/
def SHA256.sigma_1 (x : Nat) : Nat :=
  r_rotate_w 4 x 17 ^^^ r_rotate_w 4 x 19 ^^^ (x >>> 10)

/-- The `sha2.SHA256` class. -/
def SHA256 : SHA2 where
  WORD_SIZE := 4
  BLOCK_SIZE := 64
  DIGEST_LENGTH := none
  K := [0x428A2F98, 0x71374491, 0xB5C0FBCF, 0xE9B5DBA5, 0x3956C25B, 0x59F111F1,
        0x923F82A4, 0xAB1C5ED5, 0xD807AA98, 0x12835B01, 0x243185BE, 0x550C7DC3,
        0x72BE5D74, 0x80DEB1FE, 0x9BDC06A7, 0xC19BF174, 0xE49B69C1, 0xEFBE4786,
        0x0FC19DC6, 0x240CA1CC, 0x2DE92C6F, 0x4A7484AA, 0x5CB0A9DC, 0x76F988DA,
        0x983E5152, 0xA831C66D, 0xB00327C8, 0xBF597FC7, 0xC6E00BF3, 0xD5A79147,
        0x06CA6351, 0x14292967, 0x27B70A85, 0x2E1B2138, 0x4D2C6DFC, 0x53380D13,
        0x650A7354, 0x766A0ABB, 0x81C2C92E, 0x92722C85, 0xA2BFE8A1, 0xA81A664B,
        0xC24B8B70, 0xC76C51A3, 0xD192E819, 0xD6990624, 0xF40E3585, 0x106AA070,
        0x19A4C116, 0x1E376C08, 0x2748774C, 0x34B0BCB5, 0x391C0CB3, 0x4ED8AA4A,
        0x5B9CCA4F, 0x682E6FF3, 0x748F82EE, 0x78A5636F, 0x84C87814, 0x8CC70208,
        0x90BEFFFA, 0xA4506CEB, 0xBEF9A3F7, 0xC67178F2]
  H := [0x6A09E667, 0xBB67AE85, 0x3C6EF372, 0xA54FF53A,
        0x510E527F, 0x9B05688C, 0x1F83D9AB, 0x5BE0CD19]
  usigma_0 := SHA256.usigma_0
  usigma_1 := SHA256.usigma_1
  sigma_0 := SHA256.sigma_0
  sigma_1 := SHA256.sigma_1

/-- The `sha2.SHA224` class: SHA256 with new `H` and `DIGEST_LENGTH = 7`. -/
def SHA224 : SHA2 :=
  { SHA256 with
    H := [0xC1059ED8, 0x367CD507, 0x3070DD17, 0xF70E5939,
          0xFFC00B31, 0x68581511, 0x64F98FA7, 0xBEFA4FA4],
    DIGEST_LENGTH := some 7 }

/-- `SHA512._usigma_0`. -/
def SHA512.usigma_0 (x : Nat) : Nat :=
  r_rotate_w 8 x 28 ^^^ r_rotate_w 8 x 34 ^^^ r_rotate_w 8 x 39

/-- `SHA512._usigma_1`. -/
def SHA512.usigma_1 (x : Nat) : Nat :=
  r_rotate_w 8 x 14 ^^^ r_rotate_w 8 x 18 ^^^ r_rotate_w 8 x 41

/-- `SHA512._sigma_0`. -/
def SHA512.sigma_0 (x : Nat) : Nat :=
  r_rotate_w 8 x 1 ^^^ r_rotate_w 8 x 8 ^^^ (x >>> 7)

/-- `SHA512._sigma_1`. -/
def SHA512.sigma_1 (x : Nat) : Nat :=
  r_rotate_w 8 x 19 ^^^ r_rotate_w 8 x 61 ^^^ (x >>> 6)

/-- The `sha2.SHA512` class. -/
def SHA512 : SHA2 where
  WORD_SIZE := 8
  BLOCK_SIZE := 128
  DIGEST_LENGTH := none
  K := [0x428A2F98D728AE22, 0x7137449123EF65CD, 0xB5C0FBCFEC4D3B2F, 0xE9B5DBA58189DBBC,
        0x3956C25BF348B538, 0x59F111F1B605D019, 0x923F82A4AF194F9B, 0xAB1C5ED5DA6D8118,
        0xD807AA98A3030242, 0x12835B0145706FBE, 0x243185BE4EE4B28C, 0x550C7DC3D5FFB4E2,
        0x72BE5D74F27B896F, 0x80DEB1FE3B1696B1, 0x9BDC06A725C71235, 0xC19BF174CF692694,
        0xE49B69C19EF14AD2, 0xEFBE4786384F25E3, 0x0FC19DC68B8CD5B5, 0x240CA1CC77AC9C65,
        0x2DE92C6F592B0275, 0x4A7484AA6EA6E483, 0x5CB0A9DCBD41FBD4, 0x76F988DA831153B5,
        0x983E5152EE66DFAB, 0xA831C66D2DB43210, 0xB00327C898FB213F, 0xBF597FC7BEEF0EE4,
        0xC6E00BF33DA88FC2, 0xD5A79147930AA725, 0x06CA6351E003826F, 0x142929670A0E6E70,
        0x27B70A8546D22FFC, 0x2E1B21385C26C926, 0x4D2C6DFC5AC42AED, 0x53380D139D95B3DF,
        0x650A73548BAF63DE, 0x766A0ABB3C77B2A8, 0x81C2C92E47EDAEE6, 0x92722C851482353B,
        0xA2BFE8A14CF10364, 0xA81A664BBC423001, 0xC24B8B70D0F89791, 0xC76C51A30654BE30,
        0xD192E819D6EF5218, 0xD69906245565A910, 0xF40E35855771202A, 0x106AA07032BBD1B8,
        0x19A4C116B8D2D0C8, 0x1E376C085141AB53, 0x2748774CDF8EEB99, 0x34B0BCB5E19B48A8,
        0x391C0CB3C5C95A63, 0x4ED8AA4AE3418ACB, 0x5B9CCA4F7763E373, 0x682E6FF3D6B2B8A3,
        0x748F82EE5DEFB2FC, 0x78A5636F43172F60, 0x84C87814A1F0AB72, 0x8CC702081A6439EC,
        0x90BEFFFA23631E28, 0xA4506CEBDE82BDE9, 0xBEF9A3F7B2C67915, 0xC67178F2E372532B,
        0xCA273ECEEA26619C, 0xD186B8C721C0C207, 0xEADA7DD6CDE0EB1E, 0xF57D4F7FEE6ED178,
        0x06F067AA72176FBA, 0x0A637DC5A2C898A6, 0x113F9804BEF90DAE, 0x1B710B35131C471B,
        0x28DB77F523047D84, 0x32CAAB7B40C72493, 0x3C9EBE0A15C9BEBC, 0x431D67C49C100D4C,
        0x4CC5D4BECB3E42B6, 0x597F299CFC657E2A, 0x5FCB6FAB3AD6FAEC, 0x6C44198C4A475817]
  H := [0x6A09E667F3BCC908, 0xBB67AE8584CAA73B, 0x3C6EF372FE94F82B, 0xA54FF53A5F1D36F1,
        0x510E527FADE682D1, 0x9B05688C2B3E6C1F, 0x1F83D9ABFB41BD6B, 0x5BE0CD19137E2179]
  usigma_0 := SHA512.usigma_0
  usigma_1 := SHA512.usigma_1
  sigma_0 := SHA512.sigma_0
  sigma_1 := SHA512.sigma_1

/-- The `sha2.SHA384` class: SHA512 with new `H` and `DIGEST_LENGTH = 6`. -/
def SHA384 : SHA2 :=
  { SHA512 with
    H := [0xCBBB9D5DC1059ED8, 0x629A292A367CD507, 0x9159015A3070DD17, 0x152FECD8F70E5939,
          0x67332667FFC00B31, 0x8EB44A8768581511, 0xDB0C2E0D64F98FA7, 0x47B5481DBEFA4FA4],
    DIGEST_LENGTH := some 6 }

/-! ### Embedding of src/sha256.py (the second, older variant of the engine) -/

namespace sha256

/-- Class-level data of `sha256.SHA2`; here `WORD_SIZE`, `BLOCK_SIZE` and
`LENGTH_BLOCK_SIZE` are in bits. -/
structure SHA2 where
  WORD_SIZE : Nat
  BLOCK_SIZE : Nat
  LENGTH_BLOCK_SIZE : Nat
  K : List Nat
  H : List Nat
  usigma_0 : Nat → Nat
  usigma_1 : Nat → Nat
  sigma_0 : Nat → Nat
  sigma_1 : Nat → Nat

/-- `sha256.SHA2.r_rotate` with the class replaced by its word size in bits:
`((x >> n) | x << (WORD_SIZE - n)) % (2 ** WORD_SIZE)`. -/
def r_rotate_b (wordSize x n : Nat) : Nat :=
  ((x >>> n) ||| x <<< (wordSize - n)) % 2 ^ wordSize

/-- `sha256.SHA2.bit_not`: `(1 << WORD_SIZE) - 1 - x`. -/
def SHA2.bit_not (cls : SHA2) (x : Nat) : Nat :=
  (1 <<< cls.WORD_SIZE) - 1 - x

/-- `sha256.SHA2.ch`: `(x & y) ^ (bit_not(x) & z)` (this file uses XOR). -/
def SHA2.ch (cls : SHA2) (x y z : Nat) : Nat :=
  (x &&& y) ^^^ (cls.bit_not x &&& z)

/-- `sha256.SHA2.maj` (staticmethod): `(x & y) ^ (x & z) ^ (y & z)`. -/
def SHA2.maj (x y z : Nat) : Nat :=
  (x &&& y) ^^^ (x &&& z) ^^^ (y &&& z)

/-- `sha256.SHA2._process`.  Note the block slice in the source is
`m[i * (BLOCK_SIZE // 8) : (i + 1) + (BLOCK_SIZE // 8)]`, whose upper bound
uses `+` where the matching block size would use `*`; a Python slice with an
upper bound at or below the lower bound is empty, which Nat subtraction in
the `take` count reproduces. -/
def SHA2.process (cls : SHA2) (m : List Nat) : List (List Nat) × List Nat :=
  ((List.range (m.length / (cls.BLOCK_SIZE / 8))).map (fun i =>
      let block := (m.drop (i * (cls.BLOCK_SIZE / 8))).take
        ((i + 1) + cls.BLOCK_SIZE / 8 - i * (cls.BLOCK_SIZE / 8))
      (rangeStep (cls.BLOCK_SIZE / 8) (cls.WORD_SIZE / 8)).map (fun j =>
        intFromBytes ((block.drop j).take (cls.WORD_SIZE / 8)))),
   m.drop (m.length / (cls.BLOCK_SIZE / 8) * (cls.BLOCK_SIZE / 8)))

/-- `sha256.SHA2._expand_message_block`: copies the word list and appends
`(sigma_1(w[i-2]) + w[i-7] + sigma_0(w[i-15]) + w[i-16]) % 2 ** WORD_SIZE`
for `i` in `range(16, len(K))`. -/
def SHA2.expand_message_block (cls : SHA2) (words : List Nat) : List Nat :=
  (List.range' 16 (cls.K.length - 16)).foldl
    (fun w i =>
      w ++ [(cls.sigma_1 (w.getD (i - 2) 0) + w.getD (i - 7) 0
              + cls.sigma_0 (w.getD (i - 15) 0) + w.getD (i - 16) 0) % 2 ^ cls.WORD_SIZE])
    words

/-- Per-block body of `sha256.SHA2._compress`. -/
def SHA2.compress_block (cls : SHA2) (hash : List Nat) (block : List Nat) : List Nat :=
  let w := cls.expand_message_block block
  let s0 := (hash.getD 0 0, hash.getD 1 0, hash.getD 2 0, hash.getD 3 0,
             hash.getD 4 0, hash.getD 5 0, hash.getD 6 0, hash.getD 7 0)
  let s := (List.zip w cls.K).foldl
    (fun s wk =>
      match s, wk with
      | (a, b, c, d, e, f, g, h), (w, k) =>
        let t1 := h + cls.usigma_1 e + cls.ch e f g + k + w
        let t2 := cls.usigma_0 a + SHA2.maj a b c
        ((t1 + t2) % 2 ^ cls.WORD_SIZE, a, b, c, (d + t1) % 2 ^ cls.WORD_SIZE, e, f, g))
    s0
  match s with
  | (a, b, c, d, e, f, g, h) =>
    List.zipWith (fun r w => (r + w) % 2 ^ cls.WORD_SIZE) [a, b, c, d, e, f, g, h] hash

/-- `sha256.SHA2._compress`. -/
def SHA2.compress (cls : SHA2) (hash : List Nat) (blocks : List (List Nat)) : List Nat :=
  blocks.foldl cls.compress_block hash

/-- Mutable state of a `sha256.SHA2` instance: `_hash` and `_last_block`
only — this variant keeps no message-length counter. -/
structure Hasher where
  hash : List Nat
  last_block : List Nat
deriving DecidableEq

/-- `sha256.SHA2.__init__`. -/
def SHA2.new (cls : SHA2) : Hasher :=
  { hash := cls.H, last_block := [] }

/-- `sha256.SHA2.update`. -/
def SHA2.update (cls : SHA2) (st : Hasher) (message : List Nat) : Hasher :=
  let p := cls.process (st.last_block ++ message)
  { hash := cls.compress st.hash p.1, last_block := p.2 }

/-- `sha256.SHA2._process_last_block`: the length field encodes
`len(_last_block) * 8`, the bits of the *buffered* tail only. -/
def SHA2.process_last_block (cls : SHA2) (st : Hasher) : List (List Nat) :=
  let m := st.last_block
  let k : Nat := (((cls.BLOCK_SIZE : Int) - (cls.LENGTH_BLOCK_SIZE : Int) - 1
                    - (m.length : Int) * 8) % (cls.BLOCK_SIZE : Int)).toNat
  let zeroes := natToBytesBE ((k + 1) / 8) (1 <<< k)
  let length := natToBytesBE (cls.LENGTH_BLOCK_SIZE / 8) (m.length * 8)
  (cls.process (m ++ zeroes ++ length)).1

/-- `sha256.SHA2.digest` (serialises all eight hash words). -/
def SHA2.digest (cls : SHA2) (st : Hasher) : List Nat :=
  ((cls.compress st.hash (cls.process_last_block st)).map
    (natToBytesBE (cls.WORD_SIZE / 8))).flatten

/-- `sha256.SHA2.hexdigest` (`to_hex` is the same unpadded hex format). -/
def SHA2.hexdigest (cls : SHA2) (st : Hasher) : String :=
  to_hex (cls.digest st)

/-- `sha256.SHA256.usigma_0`. -/
def SHA256.usigma_0 (x : Nat) : Nat :=
  r_rotate_b 32 x 2 ^^^ r_rotate_b 32 x 13 ^^^ r_rotate_b 32 x 22

/-- `sha256.SHA256.usigma_1`. -/
def SHA256.usigma_1 (x : Nat) : Nat :=
  r_rotate_b 32 x 6 ^^^ r_rotate_b 32 x 11 ^^^ r_rotate_b 32 x 25

/-- `sha256.SHA256.sigma_0`. -/
def SHA256.sigma_0 (x : Nat) : Nat :=
  r_rotate_b 32 x 7 ^^^ r_rotate_b 32 x 18 ^^^ (x >>> 3)

/-- `sha256.SHA256.sigma_1`. -/
def SHA256.sigma_1 (x : Nat) : Nat :=
  r_rotate_b 32 x 17 ^^^ r_rotate_b 32 x 19 ^^^ (x >>> 10)

/-- The `sha256.SHA256` class. -/
def SHA256 : SHA2 where
  WORD_SIZE := 32
  BLOCK_SIZE := 512
  LENGTH_BLOCK_SIZE := 64
  K := [0x428A2F98, 0x71374491, 0xB5C0FBCF, 0xE9B5DBA5, 0x3956C25B, 0x59F111F1,
        0x923F82A4, 0xAB1C5ED5, 0xD807AA98, 0x12835B01, 0x243185BE, 0x550C7DC3,
        0x72BE5D74, 0x80DEB1FE, 0x9BDC06A7, 0xC19BF174, 0xE49B69C1, 0xEFBE4786,
        0x0FC19DC6, 0x240CA1CC, 0x2DE92C6F, 0x4A7484AA, 0x5CB0A9DC, 0x76F988DA,
        0x983E5152, 0xA831C66D, 0xB00327C8, 0xBF597FC7, 0xC6E00BF3, 0xD5A79147,
        0x06CA6351, 0x14292967, 0x27B70A85, 0x2E1B2138, 0x4D2C6DFC, 0x53380D13,
        0x650A7354, 0x766A0ABB, 0x81C2C92E, 0x92722C85, 0xA2BFE8A1, 0xA81A664B,
        0xC24B8B70, 0xC76C51A3, 0xD192E819, 0xD6990624, 0xF40E3585, 0x106AA070,
        0x19A4C116, 0x1E376C08, 0x2748774C, 0x34B0BCB5, 0x391C0CB3, 0x4ED8AA4A,
        0x5B9CCA4F, 0x682E6FF3, 0x748F82EE, 0x78A5636F, 0x84C87814, 0x8CC70208,
        0x90BEFFFA, 0xA4506CEB, 0xBEF9A3F7, 0xC67178F2]
  H := [0x6A09E667, 0xBB67AE85, 0x3C6EF372, 0xA54FF53A,
        0x510E527F, 0x9B05688C, 0x1F83D9AB, 0x5BE0CD19]
  usigma_0 := SHA256.usigma_0
  usigma_1 := SHA256.usigma_1
  sigma_0 := SHA256.sigma_0
  sigma_1 := SHA256.sigma_1

end sha256

/-! ### Infrastructure lemmas about `SHA2._process` and `SHA2.update` -/

lemma natToBytesBE_length (n v : Nat) : (natToBytesBE n v).length = n := by
  induction n generalizing v with
  | zero => rfl
  | succ n ih => simp [natToBytesBE, ih]

lemma sub_div_mul_eq_mod (a b : Nat) : a - a / b * b = a % b := by
  have h := Nat.div_add_mod a b
  rw [Nat.mul_comm] at h
  generalize a / b * b = t at h ⊢
  omega

lemma SHA2.process_snd_length (cls : SHA2) (m : List Nat) :
    ((cls.process m).2).length = m.length % cls.BLOCK_SIZE := by
  simp only [SHA2.process, List.length_drop]
  exact sub_div_mul_eq_mod m.length cls.BLOCK_SIZE

lemma SHA2.process_fst_length (cls : SHA2) (m : List Nat) :
    ((cls.process m).1).length = m.length / cls.BLOCK_SIZE := by
  simp [SHA2.process]

/-- Splitting lemma for `_process`: processing `m ++ n` yields the blocks of
`m` followed by the blocks of `m`'s remainder glued to `n`, and the same
final remainder. -/
lemma SHA2.process_append (cls : SHA2) (m n : List Nat) :
    cls.process (m ++ n)
      = ((cls.process m).1 ++ (cls.process ((cls.process m).2 ++ n)).1,
         (cls.process ((cls.process m).2 ++ n)).2) := by
  rcases Nat.eq_zero_or_pos cls.BLOCK_SIZE with hB | hB
  · simp [SHA2.process, hB]
  · have hq : m.length / cls.BLOCK_SIZE * cls.BLOCK_SIZE ≤ m.length :=
      Nat.div_mul_le_self m.length cls.BLOCK_SIZE
    have hdroplen : (m.drop (m.length / cls.BLOCK_SIZE * cls.BLOCK_SIZE)).length
        = m.length % cls.BLOCK_SIZE := by
      simp only [List.length_drop]
      exact sub_div_mul_eq_mod m.length cls.BLOCK_SIZE
    have hlen : (m ++ n).length / cls.BLOCK_SIZE
        = m.length / cls.BLOCK_SIZE
          + (m.drop (m.length / cls.BLOCK_SIZE * cls.BLOCK_SIZE) ++ n).length
              / cls.BLOCK_SIZE := by
      have h2 : (m ++ n).length
          = (m.drop (m.length / cls.BLOCK_SIZE * cls.BLOCK_SIZE) ++ n).length
            + cls.BLOCK_SIZE * (m.length / cls.BLOCK_SIZE) := by
        have h := Nat.div_add_mod m.length cls.BLOCK_SIZE
        simp only [List.length_append, hdroplen]
        rw [Nat.mul_comm] at h ⊢
        generalize m.length / cls.BLOCK_SIZE * cls.BLOCK_SIZE = t at h ⊢
        omega
      rw [h2, Nat.add_mul_div_left _ _ hB, Nat.add_comm]
    have hdrop : (m ++ n).drop (m.length / cls.BLOCK_SIZE * cls.BLOCK_SIZE)
        = m.drop (m.length / cls.BLOCK_SIZE * cls.BLOCK_SIZE) ++ n :=
      List.drop_append_of_le_length hq
    simp only [SHA2.process, hlen, List.range_add, List.map_append, List.map_map]
    rw [Prod.mk.injEq]
    refine ⟨?_, ?_⟩
    · congr 1
      · apply List.map_congr_left
        intro i hi
        rw [List.mem_range] at hi
        have hiB : i * cls.BLOCK_SIZE + cls.BLOCK_SIZE ≤ m.length := by
          have : (i + 1) * cls.BLOCK_SIZE ≤ m.length / cls.BLOCK_SIZE * cls.BLOCK_SIZE :=
            Nat.mul_le_mul_right _ hi
          rw [Nat.add_mul, Nat.one_mul] at this
          omega
        have h1 : (m ++ n).drop (i * cls.BLOCK_SIZE)
            = m.drop (i * cls.BLOCK_SIZE) ++ n :=
          List.drop_append_of_le_length (by omega)
        have h2 : (m.drop (i * cls.BLOCK_SIZE) ++ n).take cls.BLOCK_SIZE
            = (m.drop (i * cls.BLOCK_SIZE)).take cls.BLOCK_SIZE :=
          List.take_append_of_le_length (by simp only [List.length_drop]; omega)
        rw [h1, h2]
      · apply List.map_congr_left
        intro j _
        simp only [Function.comp]
        have h1 : (m.length / cls.BLOCK_SIZE + j) * cls.BLOCK_SIZE
            = m.length / cls.BLOCK_SIZE * cls.BLOCK_SIZE + j * cls.BLOCK_SIZE := by
          rw [Nat.add_mul]
        rw [h1, ← List.drop_drop, hdrop]
    · rw [Nat.add_mul, ← List.drop_drop, hdrop]

lemma SHA2.compress_append (cls : SHA2) (hash : List Nat) (b1 b2 : List (List Nat)) :
    cls.compress hash (b1 ++ b2) = cls.compress (cls.compress hash b1) b2 :=
  List.foldl_append ..

/-- Fusing two consecutive chunk steps into one. -/
lemma SHA2.updateChunk_append (cls : SHA2) (st : Hasher) (a b : List Nat) :
    cls.updateChunk (cls.updateChunk st a) b = cls.updateChunk st (a ++ b) := by
  simp only [SHA2.updateChunk, ← List.append_assoc]
  rw [SHA2.process_append cls (st.last_block ++ a) b]
  simp [SHA2.compress_append, List.length_append]
  ring

lemma SHA2.updateAux_congr (cls : SHA2) :
    ∀ (f1 f2 : Nat) (st : Hasher) (m : List Nat),
      m.length < f1 → m.length < f2 →
      cls.updateAux f1 st m = cls.updateAux f2 st m := by
  intro f1
  induction f1 with
  | zero => intro f2 st m h1; omega
  | succ f1 ih =>
    intro f2 st m h1 h2
    match f2, h2 with
    | f2 + 1, h2 =>
      simp only [SHA2.updateAux]
      by_cases he : (m.take CHUNK_SIZE).isEmpty
      · simp [he]
      · simp only [he, if_false]
        have hm : m ≠ [] := by
          intro h
          subst h
          simp at he
        have hlen : (m.drop CHUNK_SIZE).length < m.length := by
          have : 0 < m.length := List.length_pos.mpr hm
          simp only [List.length_drop]
          have : 0 < CHUNK_SIZE := by norm_num [CHUNK_SIZE]
          omega
        exact ih f2 _ _ (by omega) (by omega)

lemma SHA2.updateAux_eq_update (cls : SHA2) (f : Nat) (st : Hasher) (m : List Nat)
    (h : m.length < f) : cls.updateAux f st m = cls.update st m :=
  cls.updateAux_congr f (m.length + 1) st m h (Nat.lt_succ_self _)

/-- Unfolding equation for `SHA2.update` that hides the structural fuel. -/
lemma SHA2.update_eq (cls : SHA2) (st : Hasher) (m : List Nat) :
    cls.update st m
      = if (m.take CHUNK_SIZE).isEmpty then st
        else cls.update (cls.updateChunk st (m.take CHUNK_SIZE)) (m.drop CHUNK_SIZE) := by
  have base : cls.update st m = cls.updateAux (m.length + 1) st m := rfl
  rw [base, SHA2.updateAux]
  by_cases he : (m.take CHUNK_SIZE).isEmpty
  · simp [he]
  · have hm : m ≠ [] := by intro h; subst h; simp at he
    have hC : 0 < CHUNK_SIZE := by norm_num [CHUNK_SIZE]
    have hlen : (m.drop CHUNK_SIZE).length < m.length := by
      have : 0 < m.length := List.length_pos.mpr hm
      simp only [List.length_drop]
      omega
    simp only [he, if_false]
    exact cls.updateAux_eq_update m.length _ _ hlen

lemma SHA2.update_nil (cls : SHA2) (st : Hasher) : cls.update st [] = st := by
  simp [SHA2.update, SHA2.updateAux]

/-- On a nonempty message, the chunked `update` loop acts like a single
chunk step. -/
lemma SHA2.update_eq_updateChunk (cls : SHA2) (m : List Nat) (st : Hasher)
    (hm : m ≠ []) : cls.update st m = cls.updateChunk st m := by
  have hC : 0 < CHUNK_SIZE := by norm_num [CHUNK_SIZE]
  have hne : ¬(m.take CHUNK_SIZE).isEmpty := by
    simp only [List.isEmpty_iff, List.take_eq_nil_iff]
    push_neg
    exact ⟨by omega, hm⟩
  rw [SHA2.update_eq, if_neg hne]
  by_cases hd : m.drop CHUNK_SIZE = []
  · have htake : m.take CHUNK_SIZE = m := by
      have : m.length ≤ CHUNK_SIZE := by
        have h2 := List.length_drop CHUNK_SIZE m
        rw [hd] at h2
        simp at h2
        omega
      simp [List.take_of_length_le this]
    rw [hd, htake, SHA2.update_nil]
  · have hlt : (m.drop CHUNK_SIZE).length < m.length := by
      have : 0 < m.length := List.length_pos.mpr hm
      simp only [List.length_drop]
      omega
    rw [SHA2.update_eq_updateChunk cls (m.drop CHUNK_SIZE) _ hd,
      SHA2.updateChunk_append, List.take_append_drop]
termination_by m.length
decreasing_by
  have hC : 0 < CHUNK_SIZE := by norm_num [CHUNK_SIZE]
  have hp : 0 < m.length := List.length_pos.mpr hm
  simp only [List.length_drop]
  omega

/-- The streaming law: consecutive `update` calls compose by message
concatenation. -/
lemma SHA2.update_append (cls : SHA2) (st : Hasher) (a b : List Nat) :
    cls.update (cls.update st a) b = cls.update st (a ++ b) := by
  by_cases ha : a = []
  · subst ha; rw [SHA2.update_nil, List.nil_append]
  · by_cases hb : b = []
    · subst hb; rw [SHA2.update_nil, List.append_nil]
    · have hab : a ++ b ≠ [] := by simp [ha]
      rw [SHA2.update_eq_updateChunk cls a st ha,
        SHA2.update_eq_updateChunk cls b _ hb,
        SHA2.update_eq_updateChunk cls (a ++ b) st hab,
        SHA2.updateChunk_append]

lemma SHA2.foldl_update (cls : SHA2) (cs : List (List Nat)) (st : Hasher) :
    cs.foldl cls.update st = cls.update st cs.flatten := by
  induction cs generalizing st with
  | nil => simp [SHA2.update_nil]
  | cons c cs ih =>
    simp only [List.foldl_cons, List.flatten_cons]
    rw [ih, SHA2.update_append]

lemma SHA2.update_message_length (cls : SHA2) (st : Hasher) (m : List Nat) :
    (cls.update st m).message_length = st.message_length + m.length * 8 := by
  by_cases hm : m = []
  · subst hm; simp [SHA2.update_nil]
  · rw [SHA2.update_eq_updateChunk cls m st hm]; rfl

lemma SHA2.update_last_block_lt (cls : SHA2) (hB : 0 < cls.BLOCK_SIZE)
    (st : Hasher) (m : List Nat) (h : st.last_block.length < cls.BLOCK_SIZE) :
    (cls.update st m).last_block.length < cls.BLOCK_SIZE := by
  by_cases hm : m = []
  · subst hm; rwa [SHA2.update_nil]
  · rw [SHA2.update_eq_updateChunk cls m st hm]
    show ((cls.process (st.last_block ++ m)).2).length < cls.BLOCK_SIZE
    rw [SHA2.process_snd_length]
    exact Nat.mod_lt _ hB

/-! ### The claims -/

/-- Claim C1: for the `sha2.SHA256` hasher, the empty message hashes to
`e3b0…b855` and `b"abc"` hashes to `ba78…15ad` (hex digests). -/
theorem C1_sha256_known_vectors :
    SHA2.hexdigest SHA256 (SHA2.new SHA256)
        = "e3b0c44298fc1c149afbf4c8996fb92427ae41e4649b934ca495991b7852b855"
    ∧ SHA2.hexdigest SHA256 (SHA2.update SHA256 (SHA2.new SHA256) [97, 98, 99])
        = "ba7816bf8f01cfea414140de5dae2223b00361a396177a9cb410ff61f20015ad" := by
  exact ⟨by decide, by decide⟩

/-- Claim C2: streaming equivalence — for every variant, every message and
every partition of it into chunks (empty chunks allowed), feeding the chunks
one `update` at a time yields the same digest as one `update` of the whole
message. -/
theorem C2_streaming_equivalence (cls : SHA2) (cs : List (List Nat)) :
    cls.digest (cs.foldl cls.update cls.new)
      = cls.digest (cls.update cls.new cs.flatten) := by
  rw [SHA2.foldl_update]

/-- Claim C3: `digest()` is non-destructive — it returns the hasher to its
exact previous logical state (hash words, buffer and bit counter), repeated
calls give equal digests, and `digest(); update(x); digest()` hashes the
original input extended by `x`. -/
theorem C3_digest_nondestructive (cls : SHA2) (st : Hasher) (m x : List Nat) :
    (cls.digestS st).2 = st
    ∧ (cls.digestS ((cls.digestS st).2)).1 = (cls.digestS st).1
    ∧ cls.digest (cls.update ((cls.digestS (cls.update cls.new m)).2) x)
        = cls.digest (cls.update cls.new (m ++ x)) := by
  refine ⟨rfl, rfl, ?_⟩
  show cls.digest (cls.update (cls.update cls.new m) x) = _
  rw [SHA2.update_append]

/-- Claim C6: after every sequence of `update` calls the buffered partial
block is shorter than `BLOCK_SIZE` (and trivially of length at least 0),
and `_message_length` is 8 times the total number of bytes fed in. -/
theorem C6_update_invariants (cls : SHA2) (ms : List (List Nat))
    (hB : 0 < cls.BLOCK_SIZE) :
    (ms.foldl cls.update cls.new).last_block.length < cls.BLOCK_SIZE
    ∧ (ms.foldl cls.update cls.new).message_length
        = 8 * (ms.map List.length).sum := by
  rw [SHA2.foldl_update]
  constructor
  · exact cls.update_last_block_lt hB _ _ (by simp [SHA2.new]; omega)
  · rw [SHA2.update_message_length]
    simp [SHA2.new]
    omega

/-- Witness for C6 at SHA-256 with the single update `b"abc"`. -/
theorem C6_update_invariants_witness :
    0 < SHA256.BLOCK_SIZE
    ∧ (([[97, 98, 99]] : List (List Nat)).foldl SHA256.update SHA256.new).last_block.length
        < SHA256.BLOCK_SIZE
    ∧ (([[97, 98, 99]] : List (List Nat)).foldl SHA256.update SHA256.new).message_length
        = 8 * (([[97, 98, 99]] : List (List Nat)).map List.length).sum :=
  ⟨by decide, C6_update_invariants SHA256 [[97, 98, 99]] (by decide)⟩

/-! ### Padding arithmetic -/

/-- Characterisation of the Python modulo `k` of `_process_last_block` on a
reachable buffer length: `k + 1` bits reach the end of the current block if
the `0x80` byte and the length field fit, else the end of the next block. -/
lemma SHA2.k_value_cases (cls : SHA2) (L : Nat) (hW : 0 < cls.WORD_SIZE)
    (hB : cls.BLOCK_SIZE = 16 * cls.WORD_SIZE) (hL : L < cls.BLOCK_SIZE) :
    cls.k_value L + 1
      = ((if L + 1 + 2 * cls.WORD_SIZE ≤ cls.BLOCK_SIZE
          then cls.BLOCK_SIZE else 2 * cls.BLOCK_SIZE) - 2 * cls.WORD_SIZE - L) * 8 := by
  unfold SHA2.k_value
  set D : Int := ((cls.BLOCK_SIZE : Int) - (cls.WORD_SIZE : Int) * 2 - (L : Int)) * 8 - 1
    with hD
  by_cases hc : L + 1 + 2 * cls.WORD_SIZE ≤ cls.BLOCK_SIZE
  · rw [if_pos hc, Int.emod_eq_of_lt (by omega) (by omega)]
    omega
  · rw [if_neg hc]
    have hmod : D % ((cls.BLOCK_SIZE : Int) * 8)
        = (D + (cls.BLOCK_SIZE : Int) * 8) % ((cls.BLOCK_SIZE : Int) * 8) := by
      have h := Int.add_mul_emod_self_left D ((cls.BLOCK_SIZE : Int) * 8) 1
      rw [mul_one] at h
      exact h.symm
    rw [hmod, Int.emod_eq_of_lt (by omega) (by omega)]
    omega

/-- Length of the padded buffer: one block if the `0x80` byte and the
length field fit after the buffered bytes, else two blocks. -/
lemma SHA2.padded_length (cls : SHA2) (st : Hasher) (hW : 0 < cls.WORD_SIZE)
    (hB : cls.BLOCK_SIZE = 16 * cls.WORD_SIZE)
    (hL : st.last_block.length < cls.BLOCK_SIZE) :
    (cls.padded st).length
      = if st.last_block.length + 1 + 2 * cls.WORD_SIZE ≤ cls.BLOCK_SIZE
        then cls.BLOCK_SIZE else 2 * cls.BLOCK_SIZE := by
  have hk := cls.k_value_cases st.last_block.length hW hB hL
  simp only [SHA2.padded, List.length_append, natToBytesBE_length]
  by_cases hc : st.last_block.length + 1 + 2 * cls.WORD_SIZE ≤ cls.BLOCK_SIZE
  · rw [if_pos hc] at hk ⊢
    omega
  · rw [if_neg hc] at hk ⊢
    omega

/-- Claim C7: for every reachable buffered state (buffer shorter than a
block), finalisation padding produces exactly 1 block when
`len(buffer) + 1 + 2 * WORD_SIZE ≤ BLOCK_SIZE` and exactly 2 blocks
otherwise. -/
theorem C7_padded_block_count (cls : SHA2) (st : Hasher) (hW : 0 < cls.WORD_SIZE)
    (hB : cls.BLOCK_SIZE = 16 * cls.WORD_SIZE)
    (hL : st.last_block.length < cls.BLOCK_SIZE) :
    (cls.process_last_block st).length
      = if st.last_block.length + 1 + 2 * cls.WORD_SIZE ≤ cls.BLOCK_SIZE
        then 1 else 2 := by
  have hBpos : 0 < cls.BLOCK_SIZE := by omega
  unfold SHA2.process_last_block
  rw [SHA2.process_fst_length, cls.padded_length st hW hB hL]
  by_cases hc : st.last_block.length + 1 + 2 * cls.WORD_SIZE ≤ cls.BLOCK_SIZE
  · rw [if_pos hc, if_pos hc, Nat.div_self hBpos]
  · rw [if_neg hc, if_neg hc, Nat.mul_div_cancel _ hBpos]

/-- Witness for C7: the fresh SHA-256 hasher pads to a single block. -/
theorem C7_padded_block_count_witness :
    (0 < SHA256.WORD_SIZE ∧ SHA256.BLOCK_SIZE = 16 * SHA256.WORD_SIZE
      ∧ (SHA2.new SHA256).last_block.length < SHA256.BLOCK_SIZE)
    ∧ (SHA256.process_last_block (SHA2.new SHA256)).length
        = if (SHA2.new SHA256).last_block.length + 1 + 2 * SHA256.WORD_SIZE
              ≤ SHA256.BLOCK_SIZE
          then 1 else 2 :=
  ⟨⟨by decide, by decide, by decide⟩,
   C7_padded_block_count SHA256 (SHA2.new SHA256) (by decide) (by decide) (by decide)⟩

/-- Counterexample to claim C8 as stated: after `update(b"abc")` on SHA-256
the finalisation appends `61` bytes (`0x80`, 52 zero bytes and the 8-byte
length field), which is neither `BLOCK_SIZE = 64` nor `2 * BLOCK_SIZE`. -/
theorem C8_appended_length_counterexample :
    ((SHA256.padded (SHA2.update SHA256 (SHA2.new SHA256) [97, 98, 99])).length
        - (SHA2.update SHA256 (SHA2.new SHA256) [97, 98, 99]).last_block.length) = 61
    ∧ 61 ≠ SHA256.BLOCK_SIZE ∧ 61 ≠ 2 * SHA256.BLOCK_SIZE := by
  exact ⟨by decide, by decide, by decide⟩

/-- Claim C8, amended: for every reachable buffered state the buffer plus
the appended padding (`0x80`, zero fill, length field) totals exactly
`BLOCK_SIZE` or exactly `2 * BLOCK_SIZE` bytes — equivalently the appended
byte count is `BLOCK_SIZE - len(buffer)` or `2 * BLOCK_SIZE - len(buffer)`,
not `BLOCK_SIZE` or `2 * BLOCK_SIZE` bytes on its own. -/
theorem C8_padded_total_length (cls : SHA2) (st : Hasher) (hW : 0 < cls.WORD_SIZE)
    (hB : cls.BLOCK_SIZE = 16 * cls.WORD_SIZE)
    (hL : st.last_block.length < cls.BLOCK_SIZE) :
    (cls.padded st).length = cls.BLOCK_SIZE
    ∨ (cls.padded st).length = 2 * cls.BLOCK_SIZE := by
  rw [cls.padded_length st hW hB hL]
  by_cases hc : st.last_block.length + 1 + 2 * cls.WORD_SIZE ≤ cls.BLOCK_SIZE
  · left; rw [if_pos hc]
  · right; rw [if_neg hc]

/-- Witness for the amended C8 at the state reached by `update(b"abc")`. -/
theorem C8_padded_total_length_witness :
    (0 < SHA256.WORD_SIZE ∧ SHA256.BLOCK_SIZE = 16 * SHA256.WORD_SIZE
      ∧ (SHA2.update SHA256 (SHA2.new SHA256) [97, 98, 99]).last_block.length
          < SHA256.BLOCK_SIZE)
    ∧ ((SHA256.padded (SHA2.update SHA256 (SHA2.new SHA256) [97, 98, 99])).length
          = SHA256.BLOCK_SIZE
        ∨ (SHA256.padded (SHA2.update SHA256 (SHA2.new SHA256) [97, 98, 99])).length
          = 2 * SHA256.BLOCK_SIZE) :=
  ⟨⟨by decide, by decide, by decide⟩,
   C8_padded_total_length SHA256 (SHA2.update SHA256 (SHA2.new SHA256) [97, 98, 99])
     (by decide) (by decide) (by decide)⟩

/-! ### Bit-level lemmas for the logical functions -/

lemma SHA2.testBit_bit_not (cls : SHA2) (x i : Nat)
    (hx : x < 2 ^ (cls.WORD_SIZE * 8)) :
    (cls.bit_not x).testBit i
      = (decide (i < cls.WORD_SIZE * 8) && ! x.testBit i) := by
  unfold SHA2.bit_not
  rw [Nat.shiftLeft_eq, one_mul, Nat.sub_sub, Nat.add_comm 1 x]
  exact Nat.testBit_two_pow_sub_succ hx i

lemma r_rotate_w_lt (w x n : Nat) : r_rotate_w w x n < 2 ^ (w * 8) :=
  Nat.mod_lt _ (Nat.pos_pow_of_pos _ (by omega))

lemma testBit_r_rotate_w (w x n i : Nat) (hx : x < 2 ^ (w * 8)) (hn : n < w * 8) :
    (r_rotate_w w x n).testBit i
      = (decide (i < w * 8) && x.testBit ((i + n) % (w * 8))) := by
  unfold r_rotate_w
  simp only [Nat.testBit_mod_two_pow, Nat.testBit_or, Nat.testBit_shiftRight,
    Nat.testBit_shiftLeft]
  by_cases hi : i < w * 8
  · simp only [hi, decide_True, Bool.true_and]
    by_cases hcase : i < w * 8 - n
    · have h1 : ¬ (w * 8 - n ≤ i) := by omega
      have h2 : (i + n) % (w * 8) = i + n := Nat.mod_eq_of_lt (by omega)
      simp [h1, h2, Nat.add_comm n i]
    · have h1 : w * 8 - n ≤ i := by omega
      have h2 : x.testBit (n + i) = false :=
        Nat.testBit_lt_two_pow
          (lt_of_lt_of_le hx (Nat.pow_le_pow_right (by omega) (by omega)))
      have h3 : (i + n) % (w * 8) = i - (w * 8 - n) := by
        rw [Nat.mod_eq_sub_mod (by omega), Nat.mod_eq_of_lt (by omega)]
        omega
      simp [h1, h2, h3]
  · simp [hi]

/-- Claim C5: for W-bit words, the implemented `_ch` and `_maj` (written
with OR in the source) agree with the FIPS 180-4 XOR forms. -/
theorem C5_ch_maj_xor_forms (cls : SHA2) (x y z : Nat)
    (hx : x < 2 ^ (cls.WORD_SIZE * 8)) (hy : y < 2 ^ (cls.WORD_SIZE * 8))
    (hz : z < 2 ^ (cls.WORD_SIZE * 8)) :
    cls.ch x y z = (x &&& y) ^^^ (cls.bit_not x &&& z)
    ∧ SHA2.maj x y z = (x &&& y) ^^^ (x &&& z) ^^^ (y &&& z) := by
  constructor
  · apply Nat.eq_of_testBit_eq
    intro i
    simp only [SHA2.ch, Nat.testBit_or, Nat.testBit_xor, Nat.testBit_and,
      cls.testBit_bit_not x i hx]
    cases x.testBit i <;> cases y.testBit i <;> cases z.testBit i <;>
      cases decide (i < cls.WORD_SIZE * 8) <;> rfl
  · apply Nat.eq_of_testBit_eq
    intro i
    simp only [SHA2.maj, Nat.testBit_or, Nat.testBit_xor, Nat.testBit_and]
    cases x.testBit i <;> cases y.testBit i <;> cases z.testBit i <;> rfl

/-- Witness for C5 at SHA-256 with small word values. -/
theorem C5_ch_maj_xor_forms_witness :
    (42 < 2 ^ (SHA256.WORD_SIZE * 8) ∧ 36 < 2 ^ (SHA256.WORD_SIZE * 8)
      ∧ 46 < 2 ^ (SHA256.WORD_SIZE * 8))
    ∧ (SHA256.ch 42 36 46 = (42 &&& 36) ^^^ (SHA256.bit_not 42 &&& 46)
        ∧ SHA2.maj 42 36 46 = (42 &&& 36) ^^^ (42 &&& 46) ^^^ (36 &&& 46)) :=
  ⟨⟨by decide, by decide, by decide⟩,
   C5_ch_maj_xor_forms SHA256 42 36 46 (by decide) (by decide) (by decide)⟩

/-- Claim C9: the primitive laws — double complement is the identity,
right rotations compose additively modulo the word width, `maj` is
idempotent on equal arguments, and `ch` selects `y` under the all-ones
mask and `z` under the zero mask. -/
theorem C9_primitive_laws (cls : SHA2) (x y z a b : Nat)
    (hx : x < 2 ^ (cls.WORD_SIZE * 8)) (hy : y < 2 ^ (cls.WORD_SIZE * 8))
    (hz : z < 2 ^ (cls.WORD_SIZE * 8))
    (ha0 : 0 < a) (ha : a < cls.WORD_SIZE * 8)
    (hb0 : 0 < b) (hb : b < cls.WORD_SIZE * 8) :
    cls.bit_not (cls.bit_not x) = x
    ∧ cls.r_rotate (cls.r_rotate x a) b
        = cls.r_rotate x ((a + b) % (cls.WORD_SIZE * 8))
    ∧ SHA2.maj x x x = x
    ∧ cls.ch (2 ^ (cls.WORD_SIZE * 8) - 1) y z = y
    ∧ cls.ch 0 y z = z := by
  have hN : 0 < cls.WORD_SIZE * 8 := by omega
  have hmask : ∀ v : Nat, v < 2 ^ (cls.WORD_SIZE * 8) →
      (2 ^ (cls.WORD_SIZE * 8) - 1) &&& v = v := by
    intro v hv
    rw [Nat.land_comm]
    exact Nat.and_pow_two_sub_one_of_lt_two_pow hv
  refine ⟨?_, ?_, ?_, ?_, ?_⟩
  · unfold SHA2.bit_not
    rw [Nat.shiftLeft_eq, one_mul]
    omega
  · apply Nat.eq_of_testBit_eq
    intro i
    unfold SHA2.r_rotate
    rw [testBit_r_rotate_w _ _ _ _ (r_rotate_w_lt _ x a) hb,
      testBit_r_rotate_w _ _ _ _ hx ha,
      testBit_r_rotate_w _ _ _ _ hx (Nat.mod_lt _ hN)]
    have h1 : (i + b) % (cls.WORD_SIZE * 8) < cls.WORD_SIZE * 8 := Nat.mod_lt _ hN
    have h2 : ((i + b) % (cls.WORD_SIZE * 8) + a) % (cls.WORD_SIZE * 8)
        = (i + (a + b) % (cls.WORD_SIZE * 8)) % (cls.WORD_SIZE * 8) := by
      rw [Nat.mod_add_mod, Nat.add_mod_mod, Nat.add_assoc, Nat.add_comm b a]
    simp [h1, h2]
  · simp [SHA2.maj, Nat.and_self, Nat.or_self]
  · have h0 : cls.bit_not (2 ^ (cls.WORD_SIZE * 8) - 1) = 0 := by
      unfold SHA2.bit_not
      rw [Nat.shiftLeft_eq, one_mul]
      omega
    rw [SHA2.ch, h0, Nat.zero_and, Nat.or_zero, hmask y hy]
  · have h0 : cls.bit_not 0 = 2 ^ (cls.WORD_SIZE * 8) - 1 := by
      unfold SHA2.bit_not
      rw [Nat.shiftLeft_eq, one_mul]
      omega
    rw [SHA2.ch, h0, Nat.zero_and, Nat.zero_or, hmask z hz]

/-- Witness for C9 at SHA-256 with `x = y = z = 5`, `a = b = 1`. -/
theorem C9_primitive_laws_witness :
    (5 < 2 ^ (SHA256.WORD_SIZE * 8) ∧ 0 < 1 ∧ 1 < SHA256.WORD_SIZE * 8)
    ∧ (SHA256.bit_not (SHA256.bit_not 5) = 5
        ∧ SHA256.r_rotate (SHA256.r_rotate 5 1) 1
            = SHA256.r_rotate 5 ((1 + 1) % (SHA256.WORD_SIZE * 8))
        ∧ SHA2.maj 5 5 5 = 5
        ∧ SHA256.ch (2 ^ (SHA256.WORD_SIZE * 8) - 1) 5 5 = 5
        ∧ SHA256.ch 0 5 5 = 5) :=
  ⟨⟨by decide, by decide, by decide⟩,
   C9_primitive_laws SHA256 5 5 5 1 1 (by decide) (by decide) (by decide)
     (by decide) (by decide) (by decide) (by decide)⟩

/-- Claim C4 fails on the code: `_to_hex` formats the digest as one big
integer with no left padding, so leading zero nibbles are dropped.  At the
one-byte message `b"\x03"` the SHA-256 digest is 32 bytes with a leading
zero nibble, and `hexdigest()` returns 63 characters instead of
`2 * 8 * WORD_SIZE = 64`. -/
theorem C4_hexdigest_drops_leading_zeros :
    (SHA2.digest SHA256 (SHA2.update SHA256 (SHA2.new SHA256) [3])).length
        = 8 * SHA256.WORD_SIZE
    ∧ (SHA2.hexdigest SHA256 (SHA2.update SHA256 (SHA2.new SHA256) [3])).length = 63
    ∧ (SHA2.hexdigest SHA256 (SHA2.update SHA256 (SHA2.new SHA256) [3])).length
        ≠ 2 * 8 * SHA256.WORD_SIZE := by
  exact ⟨by decide, by decide, by decide⟩

/-- Claim C10 fails on the code: the two SHA-256 engines disagree.  On the
56-zero-byte message `sha2.SHA256` emits the standard digest while
`sha256.SHA256` emits a different value (its `_process` mis-slices the
second block as `m[64 : 2 + 64]` and its length field counts only the
buffered bytes). -/
theorem C10_engines_diverge_on_56_zero_bytes :
    SHA2.hexdigest SHA256 (SHA2.update SHA256 (SHA2.new SHA256) (List.replicate 56 0))
      = "d4817aa5497628e7c77e6b606107042bbba3130888c5f47a375e6179be789fbb"
    ∧ sha256.SHA2.hexdigest sha256.SHA256
        (sha256.SHA2.update sha256.SHA256 (sha256.SHA2.new sha256.SHA256)
          (List.replicate 56 0))
      = "6c74531420e22bb5b0c20013c9e168e00b69ede84b4aff80f8f7a21672e3e6b7"
    ∧ SHA2.hexdigest SHA256 (SHA2.update SHA256 (SHA2.new SHA256) (List.replicate 56 0))
      ≠ sha256.SHA2.hexdigest sha256.SHA256
          (sha256.SHA2.update sha256.SHA256 (sha256.SHA2.new sha256.SHA256)
            (List.replicate 56 0)) := by
  exact ⟨by decide, by decide, by decide⟩
